import Mathlib

/-!
Verification of the Guest-User-Invite repository.

The development shallowly embeds the two source files:
  * the React frontend (CSV/bulk parsing, payload building, response
    classification, bulk orchestration), and
  * the Azure Functions backend (`inviteGuest` handler and the
    `authorizeInviter` decision procedure).

Modelling conventions, used throughout:
  * JS strings are Lean `String`s; `String.slice`/`take` count Lean
    characters where JS counts UTF-16 code units (the difference is
    irrelevant to every property proved here).
  * JS regex character class `\s` is modelled by `isJsWhitespaceChar`
    (the common JS whitespace code points).
  * JSON values are the inductive `Json`; JS `undefined` and `null` are
    both modelled as `Json.null`, and JSON numbers are integers (no
    property proved here depends on floating-point behaviour).
  * Object field lists are duplicate-free (as JS objects are); lookup
    takes the first binding.
  * Platform primitives (the WHATWG `new URL` parser, `JSON.parse`,
    base64 decoding of headers/JWTs, `fetch` and the Graph network
    calls) are modelled at their interfaces: either as simplified pure
    parsers documented at their definition, or as oracle inputs
    supplied by the surrounding world/request structures.
-/

namespace GuestInvite

/-- The JS `\s` regex class / `String.prototype.trim` whitespace set:
space, tab, LF, CR, VT, FF, NBSP, BOM, and the line/paragraph
separators. -/
def isJsWhitespaceChar (c : Char) : Bool :=
  c = ' ' || c = '\t' || c = '\n' || c = '\r' || c = '\x0b' || c = '\x0c' ||
  c = '\u00A0' || c = '\uFEFF' || c = '\u2028' || c = '\u2029'

/-- JS `String.prototype.trim`: drop leading and trailing whitespace. -/
def jsTrim (s : String) : String :=
  String.mk (((s.toList.dropWhile isJsWhitespaceChar).reverse.dropWhile
    isJsWhitespaceChar).reverse)

/-- JS `String.prototype.toLowerCase` (ASCII range, which is all the
sources rely on). -/
def jsToLower (s : String) : String :=
  String.mk (s.toList.map Char.toLower)

/-- Split a string at every occurrence of the character `sep`
(`current` accumulates the pending piece in reverse). -/
def splitOnCharAux (sep : Char) : List Char → List Char → List String
  | [], current => [String.mk current.reverse]
  | c :: rest, current =>
    if c = sep then String.mk current.reverse :: splitOnCharAux sep rest []
    else splitOnCharAux sep rest (c :: current)

/-- `s.split(sep)` for a one-character separator. -/
def splitOnChar (sep : Char) (s : String) : List String :=
  splitOnCharAux sep s.toList []

/-- `s.startsWith(pre)`. -/
def strStartsWith (s pre : String) : Bool :=
  pre.toList.isPrefixOf s.toList

/-- `s.slice(0, n)`. -/
def strTake (s : String) (n : Nat) : String :=
  String.mk (s.toList.take n)

/-- `s.slice(n)`. -/
def strDrop (s : String) (n : Nat) : String :=
  String.mk (s.toList.drop n)

/-- Join a list of strings with a separator (JS `Array.prototype.join`). -/
def intercalateStr (sep : String) : List String → String
  | [] => ""
  | [x] => x
  | x :: rest => x ++ sep ++ intercalateStr sep rest

/-- Drop one trailing `\r`. -/
def dropTrailingCR (t : String) : String :=
  match t.toList.reverse with
  | '\r' :: rest => String.mk rest.reverse
  | _ => t

/-- JS `text.split(/\r?\n/)`: split on `\n`, with one `\r` immediately
before the `\n` consumed by the separator. -/
def jsSplitNewline (s : String) : List String :=
  (splitOnChar '\n' s).map dropTrailingCR

/-- Helper for `replace(/\s+/g, " ")`: collapse each maximal whitespace
run into a single space.  The flag records whether the previous
character was whitespace. -/
def collapseWsAux : Bool → List Char → List Char
  | _, [] => []
  | prevWs, c :: rest =>
    if isJsWhitespaceChar c then
      if prevWs then collapseWsAux true rest
      else ' ' :: collapseWsAux true rest
    else c :: collapseWsAux false rest

/-- JS `value.replace(/\s+/g, " ")`. -/
def collapseWs (s : String) : String :=
  String.mk (collapseWsAux false s.toList)

/-- JS `String.prototype.includes` (substring containment), on char
lists. -/
def isInfixOfCharList (pat : List Char) : List Char → Bool
  | [] => pat.isEmpty
  | c :: rest => pat.isPrefixOf (c :: rest) || isInfixOfCharList pat rest

/-- JS `s.includes(pat)`. -/
def strIncludes (s pat : String) : Bool :=
  isInfixOfCharList pat.toList s.toList

/-! ## Frontend constants (part_000 lines 4-9) -/

def MAX_NAME_LENGTH : Nat := 40
def MAX_BULK_INVITES : Nat := 100
def DEFAULT_REDIRECT_URL : String := "https://myapplications.microsoft.com"

/-! ## Frontend pure helpers (part_000 lines 11-79) -/

/-- Models the WHATWG `new URL(value)` platform parser, restricted to
the absolute hierarchical `scheme://host...` shapes this app feeds it:
returns `(protocol, hostname)` (both lowercased, protocol including the
trailing colon) or `none` when the input is not of that shape
(matching `new URL` throwing). Userinfo, IPv6 hosts and scheme-relative
forms are outside the modelled fragment. -/
def urlParseSimple (value : String) : Option (String × String) :=
  let cs := value.toList
  let scheme := cs.takeWhile (fun c => c ≠ ':')
  let rest := cs.drop scheme.length
  if scheme.isEmpty || !scheme.all Char.isAlpha then none
  else
    match rest with
    | ':' :: '/' :: '/' :: tail =>
      let host := tail.takeWhile (fun c => c ≠ '/' && c ≠ '?' && c ≠ '#' && c ≠ ':')
      if host.isEmpty then none
      else some (String.mk (scheme.map Char.toLower) ++ ":", String.mk (host.map Char.toLower))
    | _ => none

/-- `isValidHttpUrl` (part_000 lines 11-24). -/
def isValidHttpUrl (value : String) : Bool :=
  if value = "" then false
  else
    match urlParseSimple value with
    | none => false
    | some (protocol, hostname) =>
      let isHttp := protocol = "https:" || protocol = "http:"
      let isLocalDev := hostname = "localhost" || hostname = "127.0.0.1"
      if !isHttp then false
      else if protocol = "http:" && !isLocalDev then false
      else true

/-- `sanitizeName` (part_000 lines 26-28): trim, collapse whitespace
runs, cut to `MAX_NAME_LENGTH`. -/
def sanitizeName (value : String) : String :=
  strTake (collapseWs (jsTrim value)) MAX_NAME_LENGTH

/-- `normalizeEmail` (part_000 lines 30-32). -/
def normalizeEmail (value : String) : String :=
  jsToLower (jsTrim value)

/-- `getDisplayName` (part_000 lines 34-36): join the non-empty names
with a space and trim. -/
def getDisplayName (firstName lastName : String) : String :=
  jsTrim (intercalateStr " " (([firstName, lastName]).filter (fun s => s ≠ "")))

/-- `parseBoolean` (part_000 lines 38-43), for a string argument
(`String(value || "")` is the identity on strings up to the empty
string, which falls through to the fallback). -/
def parseBooleanStr (value : String) (fallback : Bool) : Bool :=
  let normalized := jsToLower (jsTrim value)
  if normalized = "true" then true
  else if normalized = "false" then false
  else fallback

/-- `EMAIL_REGEX = /^[^\s@]+@[^\s@]+\.[^\s@]+$/` (part_000 line 6).
A string matches iff it splits as `local@domain` with exactly one `@`,
a non-empty whitespace-free local part, and a whitespace-free domain
that contains a dot at an interior position (so the regex's two
domain chunks around the chosen dot are non-empty). -/
def emailRegexTest (s : String) : Bool :=
  match splitOnChar '@' s with
  | [localPart, domain] =>
    !localPart.isEmpty && localPart.toList.all (fun c => !isJsWhitespaceChar c) &&
    domain.toList.all (fun c => !isJsWhitespaceChar c) &&
    ((domain.toList.drop 1).dropLast).contains '.'
  | _ => false

/-! ## JSON model -/

/-- JSON values (and the JS values the handlers pass around).  JS
`undefined` is conflated with `null`; numbers are integers. -/
inductive Json where
  | null
  | bool (b : Bool)
  | num (n : Int)
  | str (s : String)
  | arr (items : List Json)
  | obj (fields : List (String × Json))

/-- JS property access `j.key` (field lists are duplicate-free, see the
file header); absent keys and non-objects give `Json.null`
(i.e. `undefined`). -/
def jsonGet (j : Json) (key : String) : Json :=
  match j with
  | .obj fields =>
    match fields.find? (fun p => p.1 = key) with
    | some p => p.2
    | none => .null
  | _ => .null

/-- JS truthiness. -/
def jsTruthy : Json → Bool
  | .null => false
  | .bool b => b
  | .num n => n ≠ 0
  | .str s => s ≠ ""
  | .arr _ => true
  | .obj _ => true

/-- Keys of a JSON object (empty for non-objects). -/
def jsonKeys : Json → List String
  | .obj fields => fields.map (fun p => p.1)
  | _ => []

/-- `typeof j === "object"` (arrays and `null` included). -/
def jsTypeofIsObject : Json → Bool
  | .obj _ => true
  | .arr _ => true
  | .null => true
  | _ => false

mutual

/-- JS string coercion (template literals / `Array.prototype.join`):
primitives print as JS does, arrays join their coerced elements with
commas, plain objects print as `[object Object]`. -/
def jsCoerceString : Json → String
  | .null => "null"
  | .bool true => "true"
  | .bool false => "false"
  | .num n => toString n
  | .str s => s
  | .arr l => jsCoerceStringList l
  | .obj _ => "[object Object]"

def jsCoerceStringList : List Json → String
  | [] => ""
  | [j] => jsCoerceString j
  | j :: rest => jsCoerceString j ++ "," ++ jsCoerceStringList rest

end

/-- JS `x || null` for a JSON value. -/
def jsOrNull (j : Json) : Json :=
  if jsTruthy j then j else Json.null

/-- Models the JS spread-with-override `{...kvs, k: v}` up to key
order: the overridden key is moved to the end (object lookup and key
membership are unaffected). -/
def kvSet (kvs : List (String × Json)) (k : String) (v : Json) : List (String × Json) :=
  kvs.filter (fun p => p.1 ≠ k) ++ [(k, v)]

/-! ## Frontend data model -/

/-- A normalized invite entry / `sendInvite` payload object.  Optional
fields model JS properties that may be absent (`none`) — the bulk
parsers always populate all of them, but `buildInvitePayload` reads
them defensively, so absence is representable. -/
structure InviteEntry where
  email : String
  firstName : Option String
  lastName : Option String
  displayName : Option String
  inviteRedirectUrl : Option String
  sendEmail : Option Bool
  customizedMessageBody : Option String
  resetRedemption : Option Bool
  deriving DecidableEq

/-- Result of the two bulk parsers: `{ entries, errors }`. -/
structure ParseResult where
  entries : List InviteEntry
  errors : List String

/-- The wire payload produced by `buildInvitePayload`.  A `none` field
models the key being absent from the JS object; this structure has no
other fields, mirroring that the function emits no other keys. -/
structure InvitePayload where
  email : String
  displayName : String
  firstName : Option String
  lastName : Option String
  inviteRedirectUrl : Option String
  inviteRedirectURL : Option String
  sendEmail : Option Bool
  customizedMessageBody : Option String
  resetRedemption : Option Bool
  deriving DecidableEq

/-- Truthiness of a possibly-absent JS string (`undefined` and `""` are
falsy). -/
def jsOptStrTruthy : Option String → Bool
  | some s => s ≠ ""
  | none => false

/-- `buildInvitePayload` (part_000 lines 57-74).  Each conditional
property assignment of the source (`if (payload.x) body.x = ...`)
appears as the conditional value of the corresponding field, with
`none` for "key not assigned"; `payload.displayName || ""` is the
match on `displayName`, and the `typeof === "boolean"` guards are the
`isSome` conditionals. -/
def buildInvitePayload (payload : InviteEntry) : InvitePayload :=
  { email := payload.email
    displayName := match payload.displayName with
      | some s => if s = "" then "" else s
      | none => ""
    firstName := if jsOptStrTruthy payload.firstName then payload.firstName else none
    lastName := if jsOptStrTruthy payload.lastName then payload.lastName else none
    inviteRedirectUrl :=
      if jsOptStrTruthy payload.inviteRedirectUrl then payload.inviteRedirectUrl else none
    inviteRedirectURL :=
      if jsOptStrTruthy payload.inviteRedirectUrl then payload.inviteRedirectUrl else none
    sendEmail := if payload.sendEmail.isSome then payload.sendEmail else none
    customizedMessageBody :=
      if jsOptStrTruthy payload.customizedMessageBody then payload.customizedMessageBody else none
    resetRedemption := if payload.resetRedemption.isSome then payload.resetRedemption else none }

/-! ## CSV row parser (part_000 lines 81-110) -/

/-- The character loop of `parseCsvLine`: `current` is the field being
accumulated, `inQuotes` the quoting state.  A `""` while in quotes
appends a literal quote and skips the second quote character; any other
quote toggles the quoting state; a comma outside quotes ends the
current field; every field is trimmed as it is emitted. -/
def parseCsvLineAux : List Char → String → Bool → List String
  | [], current, _ => [jsTrim current]
  | '"' :: '"' :: rest2, current, true => parseCsvLineAux rest2 (current.push '"') true
  | '"' :: rest, current, inQuotes => parseCsvLineAux rest current (!inQuotes)
  | ',' :: rest, current, inQuotes =>
    if inQuotes then parseCsvLineAux rest (current.push ',') inQuotes
    else jsTrim current :: parseCsvLineAux rest "" inQuotes
  | c :: rest, current, inQuotes => parseCsvLineAux rest (current.push c) inQuotes

/-- `parseCsvLine` (part_000 lines 81-110). -/
def parseCsvLine (line : String) : List String :=
  parseCsvLineAux line.toList "" false

/-! ## Bulk entry normalizer, free-form mode (part_000 lines 112-145) -/

/-- The defaults object passed to `parseManualBulk` by the bulk branch
of `inviteGuest` (part_000 lines 399-404). -/
structure BulkDefaults where
  redirectUrl : String
  sendEmail : Bool
  customizedMessageBody : String
  resetRedemption : Bool
  deriving DecidableEq

/-- The non-blank trimmed lines a bulk text decomposes into
(part_000 lines 113-116). -/
def nonBlankLines (rawText : String) : List String :=
  ((jsSplitNewline rawText).map jsTrim).filter (fun l => l ≠ "")

/-- The entry built from one free-form line, when its email validates
(part_000 lines 122-141); `none` when the line is invalid. -/
def manualEntryOf (defaults : BulkDefaults) (p : Nat × String) : Option InviteEntry :=
  let row := parseCsvLine p.2
  let email := normalizeEmail (row.getD 0 "")
  let firstName := sanitizeName (row.getD 1 "")
  let lastName := sanitizeName (row.getD 2 "")
  if !emailRegexTest email then none
  else some
    { email
      firstName := some firstName
      lastName := some lastName
      displayName := some (getDisplayName firstName lastName)
      inviteRedirectUrl := some defaults.redirectUrl
      sendEmail := some defaults.sendEmail
      customizedMessageBody := some defaults.customizedMessageBody
      resetRedemption := some defaults.resetRedemption }

/-- The error recorded for one free-form line, when its email fails
validation (part_000 lines 127-130); `none` when the line is valid. -/
def manualErrOf (p : Nat × String) : Option String :=
  let row := parseCsvLine p.2
  let email := normalizeEmail (row.getD 0 "")
  if !emailRegexTest email then some ("Line " ++ toString (p.1 + 1) ++ ": invalid email")
  else none

/-- One step of the `forEach` accumulation in `parseManualBulk`
(part_000 lines 121-142): push either one error or one entry. -/
def manualStep (defaults : BulkDefaults) (acc : List InviteEntry × List String)
    (p : Nat × String) : List InviteEntry × List String :=
  let row := parseCsvLine p.2
  let email := normalizeEmail (row.getD 0 "")
  let firstName := sanitizeName (row.getD 1 "")
  let lastName := sanitizeName (row.getD 2 "")
  if !emailRegexTest email then
    (acc.1, acc.2 ++ ["Line " ++ toString (p.1 + 1) ++ ": invalid email"])
  else
    (acc.1 ++ [{
      email
      firstName := some firstName
      lastName := some lastName
      displayName := some (getDisplayName firstName lastName)
      inviteRedirectUrl := some defaults.redirectUrl
      sendEmail := some defaults.sendEmail
      customizedMessageBody := some defaults.customizedMessageBody
      resetRedemption := some defaults.resetRedemption }], acc.2)

/-- `parseManualBulk` (part_000 lines 112-145). -/
def parseManualBulk (rawText : String) (defaults : BulkDefaults) : ParseResult :=
  let lines := nonBlankLines rawText
  let acc := lines.enum.foldl (manualStep defaults) ([], [])
  { entries := acc.1, errors := acc.2 }

/-! ## Bulk entry normalizer, templated mode (part_000 lines 147-208) -/

/-- The defaults object passed to `parseEntraTemplateCsv`. -/
structure TemplateDefaults where
  resetRedemption : Bool
  deriving DecidableEq

/-- `rawEmail.replace(/^Example:\s*/i, "")` (part_000 line 179): strip
one leading case-insensitive `Example:` tag and the whitespace after
it. -/
def stripExampleTag (s : String) : String :=
  let cs := s.toList
  if (cs.take 8).map Char.toLower = "example:".toList then
    String.mk ((cs.drop 8).dropWhile isJsWhitespaceChar)
  else s

/-- One iteration of the data-row loop of `parseEntraTemplateCsv`
(part_000 lines 177-205).  `ei`/`ri` are the required column indices,
`si`/`mi` the optional ones; `p` carries the 0-based index of the line
within the non-blank lines together with the line. -/
def templateStep (ei ri : Nat) (si mi : Option Nat) (defaults : TemplateDefaults)
    (acc : List InviteEntry × List String) (p : Nat × String) :
    List InviteEntry × List String :=
  let row := parseCsvLine p.2
  let rawEmail := stripExampleTag (row.getD ei "")
  if rawEmail = "" || strStartsWith rawEmail "Example:" then acc
  else
    let email := normalizeEmail rawEmail
    let redirect := jsTrim (row.getD ri "")
    if !emailRegexTest email then
      (acc.1, acc.2 ++ ["Line " ++ toString (p.1 + 1) ++ ": invalid inviteeEmail"])
    else if !isValidHttpUrl redirect then
      (acc.1, acc.2 ++ ["Line " ++ toString (p.1 + 1) ++ ": invalid inviteRedirectURL"])
    else
      (acc.1 ++ [{
        email
        firstName := some ""
        lastName := some ""
        displayName := some ""
        inviteRedirectUrl := some redirect
        sendEmail := some (match si with
          | some k => parseBooleanStr (row.getD k "") true
          | none => true)
        customizedMessageBody := some (match mi with
          | some k => jsTrim (row.getD k "")
          | none => "")
        resetRedemption := some defaults.resetRedemption }], acc.2)

/-- `parseEntraTemplateCsv` (part_000 lines 147-208).  Line 1 (index 0)
is the version row, line 2 (index 1) the bracketed header row; data
rows run from index 2, and the `enum` indices match the JS loop
variable `i`. -/
def parseEntraTemplateCsv (rawText : String) (defaults : TemplateDefaults) : ParseResult :=
  let normalized := if strStartsWith rawText "\uFEFF" then strDrop rawText 1 else rawText
  let lines := nonBlankLines normalized
  if lines.length < 2 then
    { entries := [], errors := ["CSV is invalid. Expected version row and header row."] }
  else
    let headers := parseCsvLine (lines.getD 1 "")
    let emailIdx := headers.findIdx? (fun h => strIncludes h "[inviteeEmail]")
    let redirectIdx := headers.findIdx? (fun h => strIncludes h "[inviteRedirectURL]")
    let sendEmailIdx := headers.findIdx? (fun h => strIncludes h "[sendEmail]")
    let messageIdx := headers.findIdx? (fun h => strIncludes h "[customizedMessageBody]")
    match emailIdx, redirectIdx with
    | some ei, some ri =>
      let acc := (lines.enum.drop 2).foldl (templateStep ei ri sendEmailIdx messageIdx defaults) ([], [])
      { entries := acc.1, errors := acc.2 }
    | _, _ =>
      { entries := [],
        errors := ["CSV missing required columns: [inviteeEmail] and/or [inviteRedirectURL]."] }

/-! ## Response classification (part_000 lines 45-55 and 210-261) -/

/-- `safeResponse` (part_000 lines 45-55): keep only the string-typed
fields `message`, `status`, `code`, `error`, `detail` of a parsed
payload; `none` when the payload is not a truthy object or none of the
five fields is a string. -/
def safeResponse (payload : Option Json) : Option Json :=
  match payload with
  | none => none
  | some p =>
    if !jsTruthy p || !jsTypeofIsObject p then none
    else
      let kvs := (["message", "status", "code", "error", "detail"]).filterMap
        (fun k => match jsonGet p k with
          | Json.str s => some (k, Json.str s)
          | _ => none)
      if kvs.isEmpty then none else some (Json.obj kvs)

/-- The `fetch` response as seen by `sendInvite`: HTTP success flag and
status, and the body text. -/
structure FetchResult where
  ok : Bool
  status : Nat
  text : String

/-- Result object returned by `sendInvite`. -/
structure SendResult where
  ok : Bool
  data : Json

/-- The generic failure message of `sendInvite` (part_000 line 241). -/
def inviteFailedMsg (status : Nat) : String :=
  "Invite failed with HTTP " ++ toString status ++ ". Check API permissions and payload format."

/-- The response-classification tail of `sendInvite` (part_000 lines
223-247), after the network call has produced `res`/`text`.  `parsed`
is the result of the platform `JSON.parse` on the body text (`none`
when the text is empty or unparseable, matching lines 224-229). -/
def classifyInviteResponse (res : FetchResult) (parsed : Option Json) : SendResult :=
  let payloadSafe := safeResponse parsed
  if !res.ok then
    let fallbackText := if res.text = "" then none else some (strTake res.text 280)
    let baseKvs := match payloadSafe with
      | some (Json.obj kvs) => kvs
      | _ => []
    let errorVal : Json := match payloadSafe with
      | some ps =>
        let e := jsonGet ps "error"
        if jsTruthy e then e else Json.str (inviteFailedMsg res.status)
      | none => Json.str (inviteFailedMsg res.status)
    let kvs := kvSet baseKvs "error" errorVal
    let kvs := kvs ++ (match fallbackText with
      | some t => [("backendResponse", Json.str t)]
      | none => [])
    { ok := false, data := Json.obj kvs }
  else
    { ok := true,
      data := match payloadSafe with
        | some ps => ps
        | none => Json.obj [("message", Json.str "Invite sent.")] }

/-! ## Bulk orchestration (part_000 lines 384-455, bulk branch) -/

/-- Per-call outcome supplied by the environment: the `ok` flag of the
`sendInvite` result and its `data?.error` field as an optional string
(the classification above always puts a string there on failure). -/
structure SendOutcomeSim where
  ok : Bool
  dataError : Option String
  deriving DecidableEq

/-- One entry of the `failures` aggregate (part_000 line 432). -/
structure BulkFailure where
  email : String
  error : String
  deriving DecidableEq

/-- `failures.push({ email, error: response.data?.error || "Invite
failed" })` for one failed entry. -/
def bulkFailureOf (entry : InviteEntry) (r : SendOutcomeSim) : BulkFailure :=
  { email := entry.email
    error := match r.dataError with
      | some s => if s ≠ "" then s else "Invite failed"
      | none => "Invite failed" }

/-- The sequential submission loop (part_000 lines 429-434): one
`sendInvite` call per entry, in order; returns the collected failures
and, as evidence of the calls actually issued, the ordered list of
entries submitted.  `outcome i e` is the environment's response to the
`i`-th call. -/
def bulkLoopAux (outcome : Nat → InviteEntry → SendOutcomeSim) :
    Nat → List InviteEntry → List BulkFailure × List InviteEntry
  | _, [] => ([], [])
  | i, e :: rest =>
    let r := outcome i e
    let tail := bulkLoopAux outcome (i + 1) rest
    ((if r.ok then tail.1 else bulkFailureOf e r :: tail.1), e :: tail.2)

/-- The aggregate summary (part_000 lines 436-444). -/
structure BulkSummary where
  source : String
  totalRows : Nat
  validRows : Nat
  invalidRows : List String
  invited : Nat
  failed : Nat
  failures : List BulkFailure
  deriving DecidableEq

/-- The `result.data` of the bulk branch. -/
inductive BulkData where
  | errorData (error : String)
  | summaryData (s : BulkSummary)
  deriving DecidableEq

/-- The `result` value set by the bulk branch. -/
structure BulkResult where
  ok : Bool
  data : BulkData
  deriving DecidableEq

/-- The bulk branch of `inviteGuest` (part_000 lines 409-446), starting
from the prepared `entries`/`validationErrors` (the manual parse or the
file entries with the reset-redemption override already applied) and
the display `source` tag.  Returns the result together with the
ordered list of entries for which a `sendInvite` call was issued. -/
def runBulkInvite (entries : List InviteEntry) (validationErrors : List String)
    (source : String) (outcome : Nat → InviteEntry → SendOutcomeSim) :
    BulkResult × List InviteEntry :=
  if entries.length = 0 then
    ({ ok := false, data := .errorData "No valid rows found. Upload Entra CSV or add manual rows." }, [])
  else if entries.length > MAX_BULK_INVITES then
    ({ ok := false,
       data := .errorData ("Bulk invite limit is " ++ toString MAX_BULK_INVITES ++ " rows per submission.") }, [])
  else
    let run := bulkLoopAux outcome 0 entries
    let failures := run.1
    ({ ok := failures.length = 0 && validationErrors.length = 0,
       data := .summaryData
         { source
           totalRows := entries.length + validationErrors.length
           validRows := entries.length
           invalidRows := validationErrors
           invited := entries.length - failures.length
           failed := failures.length
           failures } }, run.2)

/-! ## Backend: configuration and request model (inviteGuest.js) -/

/-- The process-wide configuration read from the environment at startup
(inviteGuest.js lines 8-16, 73). -/
structure BackendConfig where
  isAzureRuntime : Bool
  allowLocalAnonymousInvite : Bool
  allowedInviterGroupObjectIds : List String
  enforceGroupMembershipInAzure : Bool
  azureClientId : String
  guestSourceValue : String

/-- One claim of the decoded client principal. -/
structure PrincipalClaim where
  typ : String
  val : String
  deriving DecidableEq

/-- The decoded `x-ms-client-principal` assertion (inviteGuest.js lines
46-55).  The base64/JSON decoding is a platform operation; the request
carries its result directly (`none` models a missing header or a
decode failure, both of which yield `null` in the source).  A non-array
`claims` field decodes to the empty list (line 58). -/
structure ClientPrincipal where
  claims : List PrincipalClaim
  userId : Option String
  deriving DecidableEq

/-- The inbound request as the handler reads it: the decoded principal
and the parsed JSON body (`none` models `request.json()` throwing,
which line 275 turns into `{}`). -/
structure BackendRequest where
  principal : Option ClientPrincipal
  body : Option Json

/-- `getClaimValue` (inviteGuest.js lines 57-61): first claim with the
given `typ`; an empty `val` falls to `null` via `match?.val || null`. -/
def getClaimValue (principal : ClientPrincipal) (claimName : String) : Option String :=
  match principal.claims.find? (fun c => c.typ = claimName) with
  | some c => if c.val = "" then none else some c.val
  | none => none

/-- `getCallerObjectId` (inviteGuest.js lines 63-70): the object
identifier claim, then the `oid` alias, then the principal's `userId`
(empty string falsy), else `null`. -/
def getCallerObjectId (principal : ClientPrincipal) : Option String :=
  match getClaimValue principal "http://schemas.microsoft.com/identity/claims/objectidentifier" with
  | some v => some v
  | none =>
    match getClaimValue principal "oid" with
    | some v => some v
    | none =>
      match principal.userId with
      | some u => if u = "" then none else some u
      | none => none

/-- The error a failed Graph call throws (inviteGuest.js lines 117-124):
status and message plus the decorations the catch blocks surface. -/
structure GraphErr where
  status : Option Nat
  message : String
  details : Option Json
  requestId : Option String
  clientRequestId : Option String
  wwwAuthenticate : Option String

/-- The external Graph endpoints `authorizeInviter` consults, as
oracles: each call either returns the parsed response JSON or throws a
`GraphErr` (the `fetch`/`graphRequest` pair, lines 104-128, modelled at
its interface). -/
structure GraphWorld where
  getUser : String → Except GraphErr Json
  checkGroups : String → Except GraphErr Json

/-- The decision produced by `authorizeInviter`. -/
inductive AuthDecision where
  | allowed (mode : String) (caller : Json)
  | denied (status : Nat) (error : String)

/-- External calls the backend makes, in order, used to state
before/after properties. -/
inductive Effect where
  | acquireToken
  | graphGetUser (oid : String)
  | graphCheckGroups (oid : String)
  | graphPostInvitation (body : Json)
  | graphPatchUser (userId : String)

/-- `!caller?.id || caller.accountEnabled === false` (line 164). -/
def callerInactive (caller : Json) : Bool :=
  !jsTruthy (jsonGet caller "id") ||
    (match jsonGet caller "accountEnabled" with
      | Json.bool false => true
      | _ => false)

/-- `caller.userType !== "Member"` (line 172). -/
def callerNotMember (caller : Json) : Bool :=
  match jsonGet caller "userType" with
  | Json.str s => s ≠ "Member"
  | _ => true

/-- The synthetic caller of the local bypass (lines 132-136). -/
def localBypassCaller : Json :=
  Json.obj [("userType", Json.str "Member"), ("id", Json.str "local-dev")]

/-- `authorizeInviter` (inviteGuest.js lines 130-215).  Returns the
decision (or the propagated Graph error) together with the list of
directory calls it performed. -/
def authorizeInviter (cfg : BackendConfig) (req : BackendRequest) (w : GraphWorld) :
    Except GraphErr AuthDecision × List Effect :=
  if !cfg.isAzureRuntime && cfg.allowLocalAnonymousInvite then
    (.ok (.allowed "local_bypass" localBypassCaller), [])
  else
    match req.principal with
    | none =>
      (.ok (.denied 401 "Unauthorized. Enable App Service Authentication and call this API as a signed-in internal user."), [])
    | some principal =>
      match getCallerObjectId principal with
      | none => (.ok (.denied 401 "Unauthorized. Caller object ID claim is missing."), [])
      | some callerOid =>
        match w.getUser callerOid with
        | .error e => (.error e, [.graphGetUser callerOid])
        | .ok caller =>
          if callerInactive caller then
            (.ok (.denied 403 "Forbidden. Caller account is not active."), [.graphGetUser callerOid])
          else if callerNotMember caller then
            (.ok (.denied 403 "Forbidden. Only tenant Member users can send invites."), [.graphGetUser callerOid])
          else if cfg.isAzureRuntime && cfg.enforceGroupMembershipInAzure &&
              cfg.allowedInviterGroupObjectIds.length = 0 then
            (.ok (.denied 500 "Server misconfiguration. ALLOWED_INVITER_GROUP_OBJECT_IDS must be set in Azure."), [.graphGetUser callerOid])
          else
            let shouldCheckGroupMembership :=
              cfg.allowedInviterGroupObjectIds.length > 0 &&
              (!cfg.isAzureRuntime || cfg.enforceGroupMembershipInAzure)
            if shouldCheckGroupMembership then
              match w.checkGroups callerOid with
              | .error e => (.error e, [.graphGetUser callerOid, .graphCheckGroups callerOid])
              | .ok membership =>
                let matched := match jsonGet membership "value" with
                  | Json.arr items => items
                  | _ => []
                if matched.length = 0 then
                  (.ok (.denied 403 "Forbidden. Caller is not in the allowed inviter group."),
                    [.graphGetUser callerOid, .graphCheckGroups callerOid])
                else
                  (.ok (.allowed "entra_authenticated" caller),
                    [.graphGetUser callerOid, .graphCheckGroups callerOid])
            else
              (.ok (.allowed "entra_authenticated" caller), [.graphGetUser callerOid])

/-! ## Backend: the inviteGuest handler (inviteGuest.js lines 268-406) -/

/-- The runtime descriptor of `getRuntimeCredential` (lines 72-96),
determined by the configuration. -/
structure RuntimeInfo where
  mode : String
  azClientIdConfigured : Bool

/-- `getRuntimeCredential` (lines 72-96), credential object omitted. -/
def runtimeInfo (cfg : BackendConfig) : RuntimeInfo :=
  let configuredClientId := jsTrim cfg.azureClientId
  if cfg.isAzureRuntime then
    if configuredClientId ≠ "" then
      { mode := "managed_identity_user_assigned", azClientIdConfigured := true }
    else
      { mode := "managed_identity_system_assigned", azClientIdConfigured := false }
  else
    { mode := "local_default_credential", azClientIdConfigured := configuredClientId ≠ "" }

/-- An HTTP response of the handler: status plus JSON body. -/
structure BackendResponse where
  status : Nat
  jsonBody : Json

/-- `s || null` for an optional string (empty string falsy). -/
def strOrNull (o : Option String) : Json :=
  match o with
  | some s => if s = "" then Json.null else Json.str s
  | none => Json.null

/-- The catch block of the handler (lines 390-404): `e.status || 500`
with the error decorations and whatever runtime information had been
established (`none` while `runtime` is still `null`). -/
def catchResponse (e : GraphErr) (runtime : Option RuntimeInfo) : BackendResponse :=
  { status := e.status.getD 500
    jsonBody := Json.obj
      [("error", if e.message = "" then Json.str "Unknown error" else Json.str e.message),
       ("details", match e.details with
         | some j => jsOrNull j
         | none => Json.null),
       ("requestId", strOrNull e.requestId),
       ("clientRequestId", strOrNull e.clientRequestId),
       ("wwwAuthenticate", strOrNull e.wwwAuthenticate),
       ("runtime", match runtime with
         | some r => Json.str r.mode
         | none => Json.null),
       ("azClientIdConfigured", Json.bool (match runtime with
         | some r => r.azClientIdConfigured
         | none => false))] }

/-- The extension attribute stamped onto invited users (line 7). -/
def EXT_FIELD : String :=
  "extension_9722db236acf4a89b1c3463d9a982b12_guestSource"

/-- The Graph invitation body built from the request body (lines
276-297 and 320-336). -/
def builtInvitationBody (body : Json) : Json :=
  let email := jsonGet body "email"
  let displayName :=
    if jsTruthy (jsonGet body "displayName") then jsonGet body "displayName"
    else
      let names := intercalateStr " "
        ((([jsonGet body "firstName", jsonGet body "lastName"]).filter jsTruthy).map jsCoerceString)
      let names := jsTrim names
      if names ≠ "" then Json.str names else email
  let redirectUrl :=
    if jsTruthy (jsonGet body "redirectUrl") then jsonGet body "redirectUrl"
    else if jsTruthy (jsonGet body "inviteRedirectUrl") then jsonGet body "inviteRedirectUrl"
    else if jsTruthy (jsonGet body "inviteRedirectURL") then jsonGet body "inviteRedirectURL"
    else Json.str "https://myapps.microsoft.com"
  let sendInvitationMessage := match jsonGet body "sendEmail" with
    | Json.bool b => b
    | _ => true
  let customizedMessageBody := match jsonGet body "customizedMessageBody" with
    | Json.str s => jsTrim s
    | _ => ""
  let messageLanguage := match jsonGet body "messageLanguage" with
    | Json.str s => if jsTrim s ≠ "" then jsTrim s else "en-US"
    | _ => "en-US"
  let resetRedemption := match jsonGet body "resetRedemption" with
    | Json.bool b => b
    | _ => false
  Json.obj
    ([("invitedUserEmailAddress", email),
      ("invitedUserDisplayName", displayName),
      ("inviteRedirectUrl", redirectUrl),
      ("sendInvitationMessage", Json.bool sendInvitationMessage)] ++
     (if sendInvitationMessage then
       [("invitedUserMessageInfo", Json.obj
         ([("messageLanguage", Json.str messageLanguage)] ++
          (if customizedMessageBody ≠ "" then
            [("customizedMessageBody", Json.str customizedMessageBody)]
          else [])))]
     else []) ++
     (if resetRedemption then [("resetRedemption", Json.bool true)] else []))

/-- The world the handler runs against: the token acquisition (lines
98-102), the decoded claims of the acquired token (`decodeJwtClaims`,
a platform base64/JSON decode, modelled as supplied), and the Graph
endpoints. -/
structure HandlerWorld where
  tokenRes : Except GraphErr String
  tokenClaims : Option Json
  getUser : String → Except GraphErr Json
  checkGroups : String → Except GraphErr Json
  postInvitation : Json → Except GraphErr Json
  patchUser : String → Except GraphErr Json

/-- The directory oracles of a handler world. -/
def HandlerWorld.graphWorld (w : HandlerWorld) : GraphWorld :=
  { getUser := w.getUser, checkGroups := w.checkGroups }

/-- The `tokenContext` field of the success body (lines 379-387). -/
def tokenContextJson (tokenClaims : Option Json) : Json :=
  match tokenClaims with
  | some c => Json.obj
      [("aud", jsonGet c "aud"), ("tid", jsonGet c "tid"),
       ("appid", jsonGet c "appid"), ("oid", jsonGet c "oid"),
       ("roles", if jsTruthy (jsonGet c "roles") then jsonGet c "roles" else Json.arr [])]
  | none => Json.null

/-- The 200 success body (lines 363-389). -/
def successResponse (cfg : BackendConfig) (runtime : RuntimeInfo) (tokenClaims : Option Json)
    (email invitedUserId invitation : Json) (mode : String) (caller : Json) : BackendResponse :=
  { status := 200
    jsonBody := Json.obj
      [("status", Json.str "invited_and_stamped"),
       ("invitedUserId", invitedUserId),
       ("email", email),
       ("guestSource", Json.str cfg.guestSourceValue),
       ("inviteRedeemUrl", jsOrNull (jsonGet invitation "inviteRedeemUrl")),
       ("inviterAuthorizationMode", Json.str mode),
       ("inviter", Json.obj
         [("id", jsOrNull (jsonGet caller "id")),
          ("userType", jsOrNull (jsonGet caller "userType")),
          ("userPrincipalName", jsOrNull (jsonGet caller "userPrincipalName"))]),
       ("runtime", Json.str runtime.mode),
       ("azClientIdConfigured", Json.bool runtime.azClientIdConfigured),
       ("tokenContext", tokenContextJson tokenClaims)] }

/-- The `inviteGuest` HTTP handler (inviteGuest.js lines 268-406),
returning the response and the ordered list of external calls made. -/
def inviteGuestHandler (cfg : BackendConfig) (req : BackendRequest) (w : HandlerWorld) :
    BackendResponse × List Effect :=
  let body := req.body.getD (Json.obj [])
  let email := jsonGet body "email"
  if !jsTruthy email then
    ({ status := 400, jsonBody := Json.obj [("error", Json.str "email is required")] }, [])
  else
    match w.tokenRes with
    | .error e => (catchResponse e none, [.acquireToken])
    | .ok _accessToken =>
      let runtime := runtimeInfo cfg
      let auth := authorizeInviter cfg req w.graphWorld
      let effs := Effect.acquireToken :: auth.2
      match auth.1 with
      | .error e => (catchResponse e (some runtime), effs)
      | .ok (.denied status error) =>
        ({ status
           jsonBody := Json.obj
             [("error", Json.str error),
              ("runtime", Json.str runtime.mode),
              ("azClientIdConfigured", Json.bool runtime.azClientIdConfigured)] }, effs)
      | .ok (.allowed mode caller) =>
        let invitationBody := builtInvitationBody body
        let effs := effs ++ [Effect.graphPostInvitation invitationBody]
        match w.postInvitation invitationBody with
        | .error e => (catchResponse e (some runtime), effs)
        | .ok invitation =>
          let invitedUserId := jsonGet (jsonGet invitation "invitedUser") "id"
          if !jsTruthy invitedUserId then
            ({ status := 500
               jsonBody := Json.obj
                 [("error", Json.str "Invite succeeded but invitedUser.id not returned"),
                  ("invitation", invitation)] }, effs)
          else
            let uid := jsCoerceString invitedUserId
            let effs := effs ++ [Effect.graphPatchUser uid]
            match w.patchUser uid with
            | .error e => (catchResponse e (some runtime), effs)
            | .ok _ =>
              (successResponse cfg runtime w.tokenClaims email invitedUserId invitation mode caller,
               effs)

/-! ## Reference functions used in theorem statements -/

/-- Reference splitter stating the spec's comma-splitting clause for
quote-free lines: split at every comma, fields untrimmed (`current` is
the field being accumulated). -/
def splitOnCommaAux : List Char → String → List String
  | [], current => [current]
  | c :: rest, current =>
    if c = ',' then current :: splitOnCommaAux rest ""
    else splitOnCommaAux rest (current.push c)

/-- Reference comma splitter on strings. -/
def splitOnCommaStr (s : String) : List String :=
  splitOnCommaAux s.toList ""

/-- The string-typed field `k` of the backend's parsed JSON body
(`Json.null` when the body did not parse, is not an object, or does
not carry `k` as a string) — the reference notion of "the backend's
JSON field" used to state the whitelist-filtering claim. -/
def backendStrField (parsed : Option Json) (k : String) : Json :=
  match parsed with
  | some p =>
    match jsonGet p k with
    | Json.str s => Json.str s
    | _ => Json.null
  | none => Json.null

/-- The five whitelisted response fields. -/
def SAFE_FIELDS : List String :=
  ["message", "status", "code", "error", "detail"]

/-! # Theorems -/

/-! ## Helper lemmas about the free-form normalizer -/

lemma manualStep_closed (d : BulkDefaults) (acc : List InviteEntry × List String)
    (p : Nat × String) :
    manualStep d acc p = (acc.1 ++ (manualEntryOf d p).toList, acc.2 ++ (manualErrOf p).toList) := by
  simp only [manualStep, manualEntryOf, manualErrOf]
  split <;> rename_i h <;> simp [h]

lemma foldl_manualStep (d : BulkDefaults) (l : List (Nat × String)) :
    ∀ es rs, l.foldl (manualStep d) (es, rs) =
      (es ++ l.filterMap (manualEntryOf d), rs ++ l.filterMap manualErrOf) := by
  induction l with
  | nil => intro es rs; simp
  | cons p l ih =>
    intro es rs
    rw [List.foldl_cons, manualStep_closed, ih]
    cases h1 : manualEntryOf d p <;> cases h2 : manualErrOf p <;>
      simp [h1, h2, List.filterMap_cons]

lemma manual_partition_length (d : BulkDefaults) (l : List (Nat × String)) :
    (l.filterMap (manualEntryOf d)).length + (l.filterMap manualErrOf).length = l.length := by
  induction l with
  | nil => simp
  | cons p l ih =>
    simp only [List.filterMap_cons, manualEntryOf, manualErrOf]
    split <;> rename_i h <;> simp at h <;> simp [h] <;> omega

/-! ## Helper lemma about the CSV row parser -/

lemma parseCsvLineAux_noQuote (cs : List Char) :
    ∀ current, '"' ∉ cs →
      parseCsvLineAux cs current false = (splitOnCommaAux cs current).map jsTrim := by
  induction cs with
  | nil => intro current _; simp [parseCsvLineAux, splitOnCommaAux]
  | cons c rest ih =>
    intro current h
    have hc : c ≠ '"' := fun e => h (e ▸ List.mem_cons_self c rest)
    have hrest : '"' ∉ rest := fun e => h (List.mem_cons_of_mem c e)
    by_cases hcomma : c = ','
    · subst hcomma
      simp [parseCsvLineAux, splitOnCommaAux, ih _ hrest]
    · simp [parseCsvLineAux, splitOnCommaAux, hc, hcomma, ih _ hrest]

/-- C5: `parseCsvLine` maps one line to an ordered list of trimmed
fields: it returns a single empty field on empty input, splits
`a,"b,c",d` and `a,"b""c"` as the spec's round-trip examples state
(doubled quotes inside a quoted field escape one literal quote),
tolerates an unbalanced quote by treating the rest of the line as
quoted (no error value exists in its type), and on quote-free lines
splits at every comma and trims each field. -/
theorem parseCsvLine_contract :
    parseCsvLine "" = [""] ∧
    parseCsvLine "a,\"b,c\",d" = ["a", "b,c", "d"] ∧
    parseCsvLine "a,\"b\"\"c\"" = ["a", "b\"c"] ∧
    parseCsvLine "a,\"b,c" = ["a", "b,c"] ∧
    ∀ s : String, '"' ∉ s.toList →
      parseCsvLine s = (splitOnCommaStr s).map jsTrim :=
  ⟨rfl, by decide, by decide, by decide,
   fun s h => parseCsvLineAux_noQuote s.toList "" h⟩

/-- Witness for `parseCsvLine_contract`: the comma-splitting clause at
the concrete quote-free line `"x, y ,z"`. -/
theorem parseCsvLine_contract_witness :
    parseCsvLine "x, y ,z" = (splitOnCommaStr "x, y ,z").map jsTrim :=
  parseCsvLine_contract.2.2.2.2 "x, y ,z" (by decide)

/-- C1 (code behaviour at the failing input): in templated CSV mode a
data row whose email column is `"Example: foo@bar.com"` is NOT
silently skipped — `parseEntraTemplateCsv` strips the `Example:` tag
(line 179) before the skip test (line 180), so the row yields an
entry for `foo@bar.com` and no error.  A blank email column is indeed
skipped silently, as the second conjunct shows. -/
theorem parseEntraTemplateCsv_example_row_not_skipped :
    ((parseEntraTemplateCsv
        "version\n[inviteeEmail],[inviteRedirectURL]\nExample: foo@bar.com,https://contoso.com"
        { resetRedemption := false }).entries.map (fun e => e.email) = ["foo@bar.com"] ∧
     (parseEntraTemplateCsv
        "version\n[inviteeEmail],[inviteRedirectURL]\nExample: foo@bar.com,https://contoso.com"
        { resetRedemption := false }).errors = []) ∧
    ((parseEntraTemplateCsv
        "version\n[inviteeEmail],[inviteRedirectURL]\n,https://contoso.com"
        { resetRedemption := false }).entries = [] ∧
     (parseEntraTemplateCsv
        "version\n[inviteeEmail],[inviteRedirectURL]\n,https://contoso.com"
        { resetRedemption := false }).errors = []) :=
  ⟨⟨rfl, rfl⟩, ⟨rfl, rfl⟩⟩

/-- C4 counterexample: the error line numbers count only non-blank
lines, not the lines of the input text.  In `"a@b.c\n\nbad"` the
invalid row `bad` is the third input line (the second line is blank),
yet the only error reads `Line 2: invalid email`, so the claim's
"correct line number" (the line's position in the input) fails. -/
theorem parseManualBulk_lineNumber_counterexample :
    (parseManualBulk "a@b.c\n\nbad"
        { redirectUrl := DEFAULT_REDIRECT_URL, sendEmail := true,
          customizedMessageBody := "", resetRedemption := false }).errors
      = ["Line 2: invalid email"] ∧
    (jsSplitNewline "a@b.c\n\nbad").getD 1 "" = "" ∧
    (jsSplitNewline "a@b.c\n\nbad").getD 2 "" = "bad" :=
  ⟨rfl, rfl, rfl⟩

/-- C4 (amended): `parseManualBulk` partitions the non-blank trimmed
lines of the input: line `i` (0-based, counted over non-blank lines)
contributes exactly one entry when its first CSV field normalizes to a
regex-valid email, and otherwise exactly one error reading
`Line (i+1): invalid email` — `i+1` being the line's 1-based position
among the NON-BLANK lines; never both and never neither; blank lines
contribute to neither; an invalid line does not stop later lines.
Every produced entry's email passed the address pattern (it is the
trimmed lowercased first field by definition of `manualEntryOf`). -/
theorem parseManualBulk_partitions (rawText : String) (d : BulkDefaults) :
    (parseManualBulk rawText d).entries
        = (nonBlankLines rawText).enum.filterMap (manualEntryOf d) ∧
    (parseManualBulk rawText d).errors
        = (nonBlankLines rawText).enum.filterMap manualErrOf ∧
    (parseManualBulk rawText d).entries.length + (parseManualBulk rawText d).errors.length
        = (nonBlankLines rawText).length ∧
    (∀ e ∈ (parseManualBulk rawText d).entries, emailRegexTest e.email = true) ∧
    (∀ i line, (manualEntryOf d (i, line)).isSome = (manualErrOf (i, line)).isNone) ∧
    (∀ i line, manualErrOf (i, line) = none ∨
        manualErrOf (i, line) = some ("Line " ++ toString (i + 1) ++ ": invalid email")) := by
  have hfold := foldl_manualStep d (nonBlankLines rawText).enum [] []
  have hent : (parseManualBulk rawText d).entries
      = (nonBlankLines rawText).enum.filterMap (manualEntryOf d) := by
    simp [parseManualBulk, hfold]
  have herr : (parseManualBulk rawText d).errors
      = (nonBlankLines rawText).enum.filterMap manualErrOf := by
    simp [parseManualBulk, hfold]
  refine ⟨hent, herr, ?_, ?_, ?_, ?_⟩
  · rw [hent, herr, manual_partition_length]
    simp
  · intro e he
    rw [hent] at he
    obtain ⟨a, _, hfa⟩ := List.mem_filterMap.1 he
    revert hfa
    simp only [manualEntryOf]
    split <;> rename_i h <;> intro hfa
    · exact absurd hfa (by simp)
    · rw [← Option.some.injEq] at hfa
      simp only [Option.some.injEq] at hfa
      rw [← hfa]
      simpa using h
  · intro i line
    simp only [manualEntryOf, manualErrOf]
    split <;> simp
  · intro i line
    simp only [manualErrOf]
    split <;> simp

/-- Witness for `parseManualBulk_partitions`: at the concrete input
`"ok@x.io\nbad"` the partition determines one entry and the single
error `Line 2: invalid email`. -/
theorem parseManualBulk_partitions_witness :
    (parseManualBulk "ok@x.io\nbad"
        { redirectUrl := DEFAULT_REDIRECT_URL, sendEmail := true,
          customizedMessageBody := "", resetRedemption := false }).errors
      = ["Line 2: invalid email"] ∧
    (parseManualBulk "ok@x.io\nbad"
        { redirectUrl := DEFAULT_REDIRECT_URL, sendEmail := true,
          customizedMessageBody := "", resetRedemption := false }).entries.length = 1 := by
  have h := parseManualBulk_partitions "ok@x.io\nbad"
    { redirectUrl := DEFAULT_REDIRECT_URL, sendEmail := true,
      customizedMessageBody := "", resetRedemption := false }
  exact ⟨h.2.1.trans (by decide), by rw [h.1]; decide⟩

/-! ## Bulk orchestration claims -/

/-- C3: a bulk submission whose entry list exceeds the fixed cap of
`MAX_BULK_INVITES = 100` fails as a whole with the terminal limit
error and the list of issued `sendInvite` calls is empty — the cap
check precedes the submission loop, for any validation errors, source
tag and network behaviour. -/
theorem bulkCap_blocks_before_any_call (entries : List InviteEntry)
    (validationErrors : List String) (source : String)
    (outcome : Nat → InviteEntry → SendOutcomeSim)
    (h : entries.length > MAX_BULK_INVITES) :
    runBulkInvite entries validationErrors source outcome =
      ({ ok := false, data := .errorData "Bulk invite limit is 100 rows per submission." }, []) := by
  have h0 : ¬ entries.length = 0 := by
    simp only [MAX_BULK_INVITES] at h; omega
  rw [runBulkInvite, if_neg h0, if_pos h]
  rfl

/-- Witness for `bulkCap_blocks_before_any_call`: 101 identical valid
rows are rejected with the limit error and zero calls. -/
theorem bulkCap_blocks_before_any_call_witness :
    runBulkInvite
      (List.replicate 101
        { email := "a@b.c", firstName := some "", lastName := some "",
          displayName := some "", inviteRedirectUrl := some DEFAULT_REDIRECT_URL,
          sendEmail := some true, customizedMessageBody := some "",
          resetRedemption := some false })
      [] "manual" (fun _ _ => { ok := true, dataError := none }) =
      ({ ok := false, data := .errorData "Bulk invite limit is 100 rows per submission." }, []) :=
  bulkCap_blocks_before_any_call _ _ _ _ (by simp [MAX_BULK_INVITES])

/-- Closed form of the submission loop: the calls issued are exactly
the entries, in input order, and the failures are the failing entries
in input order. -/
lemma bulkLoopAux_closed (outcome : Nat → InviteEntry → SendOutcomeSim)
    (l : List InviteEntry) : ∀ i, bulkLoopAux outcome i l =
      (((l.enumFrom i).filter (fun p => !(outcome p.1 p.2).ok)).map
         (fun p => bulkFailureOf p.2 (outcome p.1 p.2)), l) := by
  induction l with
  | nil => intro i; simp [bulkLoopAux]
  | cons e rest ih =>
    intro i
    rw [bulkLoopAux, ih (i + 1)]
    cases h : (outcome i e).ok <;> simp [List.enumFrom, h]

/-- C8: for a non-empty bulk batch within the cap, the orchestrator
issues exactly one `sendInvite` call per entry, sequentially in input
order (the issued-call list equals the entry list), aborts early on
nothing (the calls do not depend on the outcomes), and the aggregate
lists the per-row failures in input order. -/
theorem bulkInvite_sequential_all_entries (entries : List InviteEntry)
    (validationErrors : List String) (source : String)
    (outcome : Nat → InviteEntry → SendOutcomeSim)
    (hne : ¬ entries.length = 0) (hle : ¬ entries.length > MAX_BULK_INVITES) :
    runBulkInvite entries validationErrors source outcome =
      ({ ok := ((entries.enum.filter (fun p => !(outcome p.1 p.2).ok)).map
                  (fun p => bulkFailureOf p.2 (outcome p.1 p.2))).length = 0 &&
               validationErrors.length = 0,
         data := .summaryData
           { source
             totalRows := entries.length + validationErrors.length
             validRows := entries.length
             invalidRows := validationErrors
             invited := entries.length -
               ((entries.enum.filter (fun p => !(outcome p.1 p.2).ok)).map
                  (fun p => bulkFailureOf p.2 (outcome p.1 p.2))).length
             failed := ((entries.enum.filter (fun p => !(outcome p.1 p.2).ok)).map
                  (fun p => bulkFailureOf p.2 (outcome p.1 p.2))).length
             failures := (entries.enum.filter (fun p => !(outcome p.1 p.2).ok)).map
                  (fun p => bulkFailureOf p.2 (outcome p.1 p.2)) } },
       entries) := by
  rw [runBulkInvite, if_neg hne, if_neg hle]
  rw [show bulkLoopAux outcome 0 entries = _ from bulkLoopAux_closed outcome entries 0]
  rfl

/-- Witness for `bulkInvite_sequential_all_entries`: two entries, the
first failing — both are called in order and the single failure is
reported first. -/
theorem bulkInvite_sequential_all_entries_witness :
    runBulkInvite
      [{ email := "x@y.zz", firstName := some "", lastName := some "",
         displayName := some "", inviteRedirectUrl := some DEFAULT_REDIRECT_URL,
         sendEmail := some true, customizedMessageBody := some "",
         resetRedemption := some false },
       { email := "q@y.zz", firstName := some "", lastName := some "",
         displayName := some "", inviteRedirectUrl := some DEFAULT_REDIRECT_URL,
         sendEmail := some true, customizedMessageBody := some "",
         resetRedemption := some false }]
      [] "manual"
      (fun i _ => if i = 0 then { ok := false, dataError := some "boom" }
                  else { ok := true, dataError := none }) =
      ({ ok := false,
         data := .summaryData
           { source := "manual", totalRows := 2, validRows := 2, invalidRows := [],
             invited := 1, failed := 1,
             failures := [{ email := "x@y.zz", error := "boom" }] } },
       [{ email := "x@y.zz", firstName := some "", lastName := some "",
          displayName := some "", inviteRedirectUrl := some DEFAULT_REDIRECT_URL,
          sendEmail := some true, customizedMessageBody := some "",
          resetRedemption := some false },
        { email := "q@y.zz", firstName := some "", lastName := some "",
          displayName := some "", inviteRedirectUrl := some DEFAULT_REDIRECT_URL,
          sendEmail := some true, customizedMessageBody := some "",
          resetRedemption := some false }]) :=
  (bulkInvite_sequential_all_entries _ _ _ _ (by decide) (by decide)).trans (by decide)

/-! ## Authorization claims -/

/-- C2 counterexample: in the managed runtime with enforcement enabled
and an empty allow-list, a request carrying NO client-principal
assertion is denied with status 401, not 500 — so the denial status is
not independent of the caller identity presented. -/
theorem authorize_misconfig_counterexample :
    (authorizeInviter
        { isAzureRuntime := true, allowLocalAnonymousInvite := true,
          allowedInviterGroupObjectIds := [], enforceGroupMembershipInAzure := true,
          azureClientId := "", guestSourceValue := "GuestInvited" }
        { principal := none, body := none }
        { getUser := fun _ => .ok Json.null, checkGroups := fun _ => .ok Json.null }).1 =
      .ok (.denied 401
        "Unauthorized. Enable App Service Authentication and call this API as a signed-in internal user.") ∧
    (401 : Nat) ≠ 500 :=
  ⟨rfl, by decide⟩

/-- C2 (amended): in the managed runtime with group enforcement enabled
and an empty allow-list, `authorizeInviter` authorizes no request at
all (fail closed): every non-exceptional outcome is a denial.  The
denial status depends on the identity presented — no assertion or no
object-id claim gives 401, an inactive or non-Member caller gives 403
— and a caller passing all identity checks is denied with status 500
(server misconfiguration). -/
theorem authorize_misconfig_denies_all (cfg : BackendConfig) (req : BackendRequest)
    (w : GraphWorld) (hAz : cfg.isAzureRuntime = true)
    (hEnf : cfg.enforceGroupMembershipInAzure = true)
    (hEmpty : cfg.allowedInviterGroupObjectIds = []) :
    (∀ mode caller, (authorizeInviter cfg req w).1 ≠ .ok (.allowed mode caller)) ∧
    (∀ principal callerOid caller,
      req.principal = some principal →
      getCallerObjectId principal = some callerOid →
      w.getUser callerOid = .ok caller →
      callerInactive caller = false →
      callerNotMember caller = false →
      (authorizeInviter cfg req w).1 =
        .ok (.denied 500
          "Server misconfiguration. ALLOWED_INVITER_GROUP_OBJECT_IDS must be set in Azure.")) := by
  constructor
  · intro mode caller
    rw [authorizeInviter]
    simp only [hAz, hEmpty]
    cases hp : req.principal with
    | none => simp
    | some principal =>
      cases ho : getCallerObjectId principal with
      | none => simp [ho]
      | some callerOid =>
        cases hg : w.getUser callerOid with
        | error e => simp [ho, hg]
        | ok c =>
          by_cases h1 : callerInactive c = true
          · simp [ho, hg, h1]
          · by_cases h2 : callerNotMember c = true
            · simp [ho, hg, h1, h2]
            · simp [ho, hg, h1, h2, hEnf]
  · intro principal callerOid caller hp ho hg h1 h2
    rw [authorizeInviter]
    simp [hAz, hEnf, hEmpty, hp, ho, hg, h1, h2]

/-- Witness for `authorize_misconfig_denies_all`: a concrete active
Member caller in the misconfigured managed environment is denied with
status 500. -/
theorem authorize_misconfig_denies_all_witness :
    (authorizeInviter
        { isAzureRuntime := true, allowLocalAnonymousInvite := false,
          allowedInviterGroupObjectIds := [], enforceGroupMembershipInAzure := true,
          azureClientId := "", guestSourceValue := "GuestInvited" }
        { principal := some { claims := [{ typ := "oid", val := "caller-1" }], userId := none },
          body := none }
        { getUser := fun _ => .ok (Json.obj
            [("id", Json.str "caller-1"), ("accountEnabled", Json.bool true),
             ("userType", Json.str "Member")]),
          checkGroups := fun _ => .ok Json.null }).1 =
      .ok (.denied 500
        "Server misconfiguration. ALLOWED_INVITER_GROUP_OBJECT_IDS must be set in Azure.") :=
  (authorize_misconfig_denies_all _ _ _ rfl rfl rfl).2 _ "caller-1" _ rfl rfl rfl rfl rfl

/-! ## Payload builder claim -/

/-- C6: `buildInvitePayload` always emits `email` and `displayName`
(empty string when the display name is absent or empty); emits
`firstName`/`lastName` exactly when they are present and non-empty
(and then with their given values); emits the redirect URL under the
two synonymous keys — always both or neither, with equal values —
exactly when it is present and non-empty; passes `sendEmail` and
`resetRedemption` through exactly when they are explicitly boolean;
emits `customizedMessageBody` exactly when present and non-empty; and
(by the shape of `InvitePayload`) emits no other keys. -/
theorem buildInvitePayload_keys (p : InviteEntry) :
    (buildInvitePayload p).email = p.email ∧
    (buildInvitePayload p).displayName =
      (match p.displayName with
        | some s => if s = "" then "" else s
        | none => "") ∧
    (buildInvitePayload p).firstName =
      (if jsOptStrTruthy p.firstName then p.firstName else none) ∧
    (buildInvitePayload p).lastName =
      (if jsOptStrTruthy p.lastName then p.lastName else none) ∧
    (buildInvitePayload p).inviteRedirectUrl = (buildInvitePayload p).inviteRedirectURL ∧
    (buildInvitePayload p).inviteRedirectUrl =
      (if jsOptStrTruthy p.inviteRedirectUrl then p.inviteRedirectUrl else none) ∧
    (buildInvitePayload p).sendEmail = p.sendEmail ∧
    (buildInvitePayload p).customizedMessageBody =
      (if jsOptStrTruthy p.customizedMessageBody then p.customizedMessageBody else none) ∧
    (buildInvitePayload p).resetRedemption = p.resetRedemption := by
  refine ⟨rfl, rfl, rfl, rfl, rfl, rfl, ?_, rfl, ?_⟩ <;>
    simp [buildInvitePayload] <;> intro h <;> exact h.symm

/-- Witness for `buildInvitePayload_keys`: the end-to-end single-invite
entry (empty names, default redirect, `sendEmail = true`) yields a
payload without `firstName`/`lastName` keys and with both redirect-URL
key variants. -/
theorem buildInvitePayload_keys_witness :
    (buildInvitePayload
        { email := "guest@external.com", firstName := some "", lastName := some "",
          displayName := some "", inviteRedirectUrl := some "https://myapplications.microsoft.com",
          sendEmail := some true, customizedMessageBody := some "",
          resetRedemption := some false }).firstName = none ∧
    (buildInvitePayload
        { email := "guest@external.com", firstName := some "", lastName := some "",
          displayName := some "", inviteRedirectUrl := some "https://myapplications.microsoft.com",
          sendEmail := some true, customizedMessageBody := some "",
          resetRedemption := some false }).lastName = none ∧
    (buildInvitePayload
        { email := "guest@external.com", firstName := some "", lastName := some "",
          displayName := some "", inviteRedirectUrl := some "https://myapplications.microsoft.com",
          sendEmail := some true, customizedMessageBody := some "",
          resetRedemption := some false }).inviteRedirectUrl
      = some "https://myapplications.microsoft.com" ∧
    (buildInvitePayload
        { email := "guest@external.com", firstName := some "", lastName := some "",
          displayName := some "", inviteRedirectUrl := some "https://myapplications.microsoft.com",
          sendEmail := some true, customizedMessageBody := some "",
          resetRedemption := some false }).inviteRedirectURL
      = some "https://myapplications.microsoft.com" ∧
    (buildInvitePayload
        { email := "guest@external.com", firstName := some "", lastName := some "",
          displayName := some "", inviteRedirectUrl := some "https://myapplications.microsoft.com",
          sendEmail := some true, customizedMessageBody := some "",
          resetRedemption := some false }).sendEmail = some true := by
  have h := buildInvitePayload_keys
    { email := "guest@external.com", firstName := some "", lastName := some "",
      displayName := some "", inviteRedirectUrl := some "https://myapplications.microsoft.com",
      sendEmail := some true, customizedMessageBody := some "",
      resetRedemption := some false }
  refine ⟨h.2.2.1.trans (by decide), h.2.2.2.1.trans (by decide), ?_, ?_, h.2.2.2.2.2.2.1⟩
  · exact h.2.2.2.2.2.1.trans (by decide)
  · exact (h.2.2.2.2.1.symm.trans h.2.2.2.2.2.1).trans (by decide)

/-! ## Response-classification lemmas -/

/-- Searching for a key other than the removed one is unaffected by the
removal step of `kvSet`. -/
lemma find?_filter_ne (l : List (String × Json)) (k k2 : String) (h : k ≠ k2) :
    (l.filter (fun p => p.1 ≠ k2)).find? (fun p => p.1 = k) = l.find? (fun p => p.1 = k) := by
  rw [List.find?_filter]
  congr 1
  funext a
  by_cases ha : a.1 = k
  · have hk2 : ¬ a.1 = k2 := by rw [ha]; exact h
    simp [ha, hk2, h]
  · simp [ha]

/-- A key absent from the whitelist is absent from the filtered field
list. -/
lemma find?_whitelistKvs_notMem (p : Json) (k : String) (keys : List String)
    (hk : k ∉ keys) :
    (keys.filterMap (fun k2 => match jsonGet p k2 with
        | Json.str s => some (k2, Json.str s)
        | _ => none)).find? (fun q => q.1 = k) = none := by
  induction keys with
  | nil => simp
  | cons k2 keys ih =>
    have hk2 : ¬ (k2 = k) := fun e => hk (e ▸ List.mem_cons_self k2 keys)
    have hrest : k ∉ keys := fun e => hk (List.mem_cons_of_mem k2 e)
    cases hg : jsonGet p k2 <;>
      simp [List.filterMap_cons, hg, hk2, ih hrest, fun e : k = k2 => hk2 e.symm]

/-- Looking up a whitelisted key in the filtered field list gives
exactly the backend's string-typed value of that key. -/
lemma find?_whitelistKvs (p : Json) (k : String) (keys : List String)
    (hk : k ∈ keys) (hnd : keys.Nodup) :
    (keys.filterMap (fun k2 => match jsonGet p k2 with
        | Json.str s => some (k2, Json.str s)
        | _ => none)).find? (fun q => q.1 = k) =
      (match jsonGet p k with
        | Json.str s => some (k, Json.str s)
        | _ => none) := by
  induction keys with
  | nil => cases hk
  | cons k2 keys ih =>
    obtain ⟨hk2notmem, hndrest⟩ := List.nodup_cons.1 hnd
    by_cases hkk : k = k2
    · subst hkk
      cases hg : jsonGet p k <;>
        simp [List.filterMap_cons, hg, find?_whitelistKvs_notMem p k keys hk2notmem]
    · have hkrest : k ∈ keys := by
        cases List.mem_cons.1 hk with
        | inl e => exact absurd e hkk
        | inr e => exact e
      have hne : ¬ (k2 = k) := fun e => hkk e.symm
      cases hg : jsonGet p k2 <;>
        simp [List.filterMap_cons, hg, hne, ih hkrest hndrest]

/-- Every key of the filtered field list is a whitelist key. -/
lemma whitelistKvs_keys (p : Json) (keys : List String) :
    ∀ q ∈ keys.filterMap (fun k2 => match jsonGet p k2 with
        | Json.str s => some (k2, Json.str s)
        | _ => none), q.1 ∈ keys := by
  intro q hq
  obtain ⟨k2, hk2, hfk⟩ := List.mem_filterMap.1 hq
  revert hfk
  cases jsonGet p k2 <;> intro hfk <;>
    first
      | exact Option.noConfusion hfk
      | (obtain rfl := Option.some.inj hfk; exact hk2)

/-- When `safeResponse` returns `null`, no whitelist key is a string
field of the backend body. -/
lemma safeResponse_none_get (parsed : Option Json) (k : String) (hk : k ∈ SAFE_FIELDS)
    (hs : safeResponse parsed = none) : backendStrField parsed k = Json.null := by
  cases parsed with
  | none => simp [backendStrField]
  | some p =>
    have hfind := find?_whitelistKvs p k SAFE_FIELDS hk (by decide)
    rw [backendStrField]
    revert hs
    simp only [safeResponse]
    by_cases ht : (!jsTruthy p || !jsTypeofIsObject p) = true
    · intro _
      have hnull : jsonGet p k = Json.null := by
        cases p <;> simp_all [jsTruthy, jsTypeofIsObject, jsonGet]
      simp [hnull]
    · simp only [ht, Bool.false_eq_true, if_false]
      intro hs
      split at hs
      · rename_i he
        rw [List.isEmpty_iff] at he
        simp only [SAFE_FIELDS] at hfind
        rw [he, List.find?_nil] at hfind
        cases hjk : jsonGet p k <;> simp_all
      · exact Option.noConfusion hs

/-- `safeResponse` produces only the whitelist-filtered field object. -/
lemma safeResponse_some_shape (parsed : Option Json) (ps : Json)
    (hs : safeResponse parsed = some ps) :
    ∃ p, parsed = some p ∧
      ps = Json.obj (SAFE_FIELDS.filterMap (fun k2 => match jsonGet p k2 with
        | Json.str s => some (k2, Json.str s)
        | _ => none)) := by
  cases parsed with
  | none => exact Option.noConfusion hs
  | some p =>
    refine ⟨p, rfl, ?_⟩
    revert hs
    simp only [safeResponse, SAFE_FIELDS]
    by_cases ht : (!jsTruthy p || !jsTypeofIsObject p) = true
    · simp [ht]
    · simp only [ht, Bool.false_eq_true, if_false]
      intro hs
      split at hs
      · exact Option.noConfusion hs
      · exact (Option.some.inj hs).symm

/-- The base field list of a failure response looks up whitelisted keys
as `backendStrField` does. -/
lemma safe_base_find (parsed : Option Json) (k : String) (hk : k ∈ SAFE_FIELDS) :
    (match safeResponse parsed with
      | some (Json.obj kvs) => kvs
      | _ => []).find? (fun q => q.1 = k) =
      (match backendStrField parsed k with
        | Json.str s => some (k, Json.str s)
        | _ => none) := by
  cases hs : safeResponse parsed with
  | none =>
    have hnull := safeResponse_none_get parsed k hk hs
    simp [hnull]
  | some ps =>
    obtain ⟨p, rfl, rfl⟩ := safeResponse_some_shape parsed ps hs
    have hfind := find?_whitelistKvs p k SAFE_FIELDS hk (by decide)
    cases hjk : jsonGet p k <;> rw [hjk] at hfind <;> simp_all [backendStrField]

/-- Projection of `jsonGet` on objects. -/
lemma jsonGet_obj (l : List (String × Json)) (k : String) :
    jsonGet (Json.obj l) k = (match l.find? (fun p => p.1 = k) with
      | some p => p.2
      | none => Json.null) := rfl

/-- A key not in the whitelist is absent from the base field list. -/
lemma safe_base_find_notMem (parsed : Option Json) (k : String) (hk : k ∉ SAFE_FIELDS) :
    (match safeResponse parsed with
      | some (Json.obj kvs) => kvs
      | _ => []).find? (fun q : String × Json => q.1 = k) = none := by
  cases hs : safeResponse parsed with
  | none => simp
  | some ps =>
    obtain ⟨p, rfl, rfl⟩ := safeResponse_some_shape parsed ps hs
    simpa using find?_whitelistKvs_notMem p k SAFE_FIELDS hk

/-- `backendStrField` is a string or `null`. -/
lemma backendStrField_str_or_null (parsed : Option Json) (k : String) :
    (∃ s, backendStrField parsed k = Json.str s) ∨ backendStrField parsed k = Json.null := by
  cases parsed with
  | none => exact Or.inr rfl
  | some p =>
    rw [backendStrField]
    cases jsonGet p k <;> simp

/-- The `error` value of a failure response, related to the backend's
`error` string field. -/
lemma errorVal_eq (parsed : Option Json) (st : Nat) :
    (match safeResponse parsed with
      | some ps =>
        if jsTruthy (jsonGet ps "error") then jsonGet ps "error"
        else Json.str (inviteFailedMsg st)
      | none => Json.str (inviteFailedMsg st)) =
      (match backendStrField parsed "error" with
        | Json.str s => if s ≠ "" then Json.str s else Json.str (inviteFailedMsg st)
        | _ => Json.str (inviteFailedMsg st)) := by
  cases hs : safeResponse parsed with
  | none => rw [safeResponse_none_get parsed "error" (by decide) hs]
  | some ps =>
    obtain ⟨p, rfl, rfl⟩ := safeResponse_some_shape parsed ps hs
    have h := find?_whitelistKvs p "error" SAFE_FIELDS (by decide) (by decide)
    have hget : jsonGet (Json.obj (SAFE_FIELDS.filterMap
        (fun k2 => match jsonGet p k2 with
          | Json.str s => some (k2, Json.str s)
          | _ => none))) "error" = backendStrField (some p) "error" := by
      rw [jsonGet_obj, h, backendStrField]
      cases hjk : jsonGet p "error" <;> rfl
    show (if jsTruthy (jsonGet (Json.obj (SAFE_FIELDS.filterMap
          (fun k2 => match jsonGet p k2 with
            | Json.str s => some (k2, Json.str s)
            | _ => none))) "error") = true then
        jsonGet (Json.obj (SAFE_FIELDS.filterMap
          (fun k2 => match jsonGet p k2 with
            | Json.str s => some (k2, Json.str s)
            | _ => none))) "error"
      else Json.str (inviteFailedMsg st)) = _
    rw [hget]
    rcases backendStrField_str_or_null (some p) "error" with ⟨s, hb⟩ | hb <;>
      rw [hb] <;> simp [jsTruthy]

/-- The removal step of `kvSet` leaves nothing under the removed key. -/
lemma find?_filter_self (l : List (String × Json)) (k2 : String) :
    (l.filter (fun p => p.1 ≠ k2)).find? (fun p => p.1 = k2) = none := by
  rw [List.find?_eq_none]
  intro x hx
  have := List.of_mem_filter hx
  simp_all

/-- Master lookup lemma for the failure data of
`classifyInviteResponse`. -/
lemma classify_fail_get (res : FetchResult) (parsed : Option Json)
    (hok : res.ok = false) (k : String) :
    jsonGet (classifyInviteResponse res parsed).data k =
      (if k = "backendResponse" then
        (if res.text = "" then Json.null else Json.str (strTake res.text 280))
      else if k = "error" then
        (match backendStrField parsed "error" with
          | Json.str s => if s ≠ "" then Json.str s else Json.str (inviteFailedMsg res.status)
          | _ => Json.str (inviteFailedMsg res.status))
      else if k ∈ SAFE_FIELDS then backendStrField parsed k
      else Json.null) := by
  simp only [classifyInviteResponse, hok, Bool.not_false, if_true]
  rw [errorVal_eq parsed res.status]
  generalize (match backendStrField parsed "error" with
    | Json.str s => if s ≠ "" then Json.str s else Json.str (inviteFailedMsg res.status)
    | _ => Json.str (inviteFailedMsg res.status)) = EV
  by_cases htx : res.text = "" <;>
    simp only [htx, if_true, if_false, Bool.false_eq_true, eq_self_iff_true] <;>
    rw [jsonGet_obj, kvSet, List.find?_append, List.find?_append] <;>
    by_cases hbr : k = "backendResponse"
  · subst hbr
    rw [find?_filter_ne _ _ _ (by decide), safe_base_find_notMem parsed _ (by decide)]
    simp
  · by_cases herr : k = "error"
    · subst herr
      rw [find?_filter_self]
      simp [hbr]
    · rw [find?_filter_ne _ _ _ herr]
      have hne : ¬ ("error" = k) := fun e => herr e.symm
      by_cases hk5 : k ∈ SAFE_FIELDS
      · rw [safe_base_find parsed k hk5]
        rcases backendStrField_str_or_null parsed k with ⟨s, hb⟩ | hb <;>
          rw [hb] <;> simp [hbr, herr, hk5, hne]
      · rw [safe_base_find_notMem parsed k hk5]
        simp [hbr, herr, hk5, hne]
  · subst hbr
    rw [find?_filter_ne _ _ _ (by decide), safe_base_find_notMem parsed _ (by decide)]
    simp
  · by_cases herr : k = "error"
    · subst herr
      rw [find?_filter_self]
      simp [hbr]
    · rw [find?_filter_ne _ _ _ herr]
      have hne : ¬ ("error" = k) := fun e => herr e.symm
      have hne2 : ¬ ("backendResponse" = k) := fun e => hbr e.symm
      by_cases hk5 : k ∈ SAFE_FIELDS
      · rw [safe_base_find parsed k hk5]
        rcases backendStrField_str_or_null parsed k with ⟨s, hb⟩ | hb <;>
          rw [hb] <;> simp [hbr, herr, hk5, hne, hne2]
      · rw [safe_base_find_notMem parsed k hk5]
        simp [hbr, herr, hk5, hne, hne2]

/-- C7 counterexample: for a failing response whose body carries the
structured error field `error`, the failure data still contains the
raw backend text under `backendResponse` — the truncated raw text is
not reserved for the no-structured-error case. -/
theorem classify_backendResponse_counterexample :
    jsonGet (classifyInviteResponse
        { ok := false, status := 500, text := "\x7b\"error\":\"boom\"\x7d" }
        (some (Json.obj [("error", Json.str "boom")]))).data "error" = Json.str "boom" ∧
    jsonGet (classifyInviteResponse
        { ok := false, status := 500, text := "\x7b\"error\":\"boom\"\x7d" }
        (some (Json.obj [("error", Json.str "boom")]))).data "backendResponse"
      = Json.str "\x7b\"error\":\"boom\"\x7d" :=
  ⟨rfl, rfl⟩

/-- C7 (amended): for every non-success response the failure data
carries only keys from the whitelist plus `backendResponse`; each of
`message`, `status`, `code`, `detail` holds exactly the backend's
string-typed field of that name (absent otherwise); `error` holds the
backend's non-empty `error` string when there is one and the generic
HTTP-status message otherwise; and `backendResponse` holds the raw
backend text truncated to 280 characters whenever the body text is
non-empty — regardless of whether a structured error field is
present (it is absent only for an empty body). -/
theorem classify_failure_filtered (res : FetchResult) (parsed : Option Json)
    (hok : res.ok = false) :
    (classifyInviteResponse res parsed).ok = false ∧
    (∀ k ∈ jsonKeys (classifyInviteResponse res parsed).data,
      k ∈ SAFE_FIELDS ++ ["backendResponse"]) ∧
    (∀ k ∈ (["message", "status", "code", "detail"] : List String),
      jsonGet (classifyInviteResponse res parsed).data k = backendStrField parsed k) ∧
    jsonGet (classifyInviteResponse res parsed).data "error" =
      (match backendStrField parsed "error" with
        | Json.str s => if s ≠ "" then Json.str s else Json.str (inviteFailedMsg res.status)
        | _ => Json.str (inviteFailedMsg res.status)) ∧
    jsonGet (classifyInviteResponse res parsed).data "backendResponse" =
      (if res.text = "" then Json.null else Json.str (strTake res.text 280)) := by
  refine ⟨?_, ?_, ?_, ?_, ?_⟩
  · simp [classifyInviteResponse, hok]
  · intro k hkk
    by_cases htx : res.text = "" <;>
      simp only [classifyInviteResponse, hok, Bool.not_false, if_true, htx, if_false,
        Bool.false_eq_true, eq_self_iff_true, jsonKeys, kvSet, List.map_append,
        List.mem_append, List.mem_map, List.map_cons, List.map_nil, List.mem_singleton,
        List.mem_cons, List.not_mem_nil, or_false] at hkk
    · rcases hkk with ⟨q, hq, rfl⟩ | rfl
      · have hqb := List.mem_of_mem_filter hq
        cases hs : safeResponse parsed with
        | none =>
          rw [hs] at hqb
          simp at hqb
        | some ps =>
          obtain ⟨p, rfl, rfl⟩ := safeResponse_some_shape parsed ps hs
          rw [hs] at hqb
          simp only [] at hqb
          exact List.mem_append.2 (Or.inl (whitelistKvs_keys p SAFE_FIELDS q hqb))
      · exact List.mem_append.2 (Or.inl (by decide))
    · rcases hkk with (⟨q, hq, rfl⟩ | rfl) | rfl
      · have hqb := List.mem_of_mem_filter hq
        cases hs : safeResponse parsed with
        | none =>
          rw [hs] at hqb
          simp at hqb
        | some ps =>
          obtain ⟨p, rfl, rfl⟩ := safeResponse_some_shape parsed ps hs
          rw [hs] at hqb
          simp only [] at hqb
          exact List.mem_append.2 (Or.inl (whitelistKvs_keys p SAFE_FIELDS q hqb))
      · exact List.mem_append.2 (Or.inl (by decide))
      · exact List.mem_append.2 (Or.inr (by decide))
  · intro k hkk
    have hk4 : k = "message" ∨ k = "status" ∨ k = "code" ∨ k = "detail" := by
      simpa using hkk
    rcases hk4 with rfl | rfl | rfl | rfl <;>
      rw [classify_fail_get res parsed hok, if_neg (by decide), if_neg (by decide),
        if_pos (by decide)]
  · rw [classify_fail_get res parsed hok "error", if_neg (by decide), if_pos rfl]
  · rw [classify_fail_get res parsed hok "backendResponse", if_pos rfl]

/-- Witness for `classify_failure_filtered`: a 404 with an empty
unparseable body yields the generic error and no `backendResponse`
key. -/
theorem classify_failure_filtered_witness :
    jsonGet (classifyInviteResponse { ok := false, status := 404, text := "" } none).data "error"
      = Json.str (inviteFailedMsg 404) ∧
    jsonGet (classifyInviteResponse
        { ok := false, status := 404, text := "" } none).data "backendResponse" = Json.null := by
  have h := classify_failure_filtered { ok := false, status := 404, text := "" } none rfl
  exact ⟨h.2.2.2.1.trans rfl, h.2.2.2.2.trans rfl⟩

/-! ## Backend handler claims -/

/-- The authorization procedure never performs the attribute-stamping
PATCH: its directory calls are profile lookups and group checks only. -/
lemma authorizeInviter_no_patch (cfg : BackendConfig) (req : BackendRequest)
    (w : GraphWorld) (uid : String) :
    Effect.graphPatchUser uid ∉ (authorizeInviter cfg req w).2 := by
  rw [authorizeInviter]
  by_cases h0 : (!cfg.isAzureRuntime && cfg.allowLocalAnonymousInvite) = true
  · simp [h0]
  · simp only [h0, Bool.false_eq_true, if_false]
    cases hp : req.principal with
    | none => simp [hp]
    | some principal =>
      cases ho : getCallerObjectId principal with
      | none => simp [ho]
      | some oid =>
        cases hg : w.getUser oid with
        | error e => simp [ho, hg]
        | ok caller =>
          simp only [ho, hg]
          split
          · simp
          · split
            · simp
            · split
              · simp
              · split
                · cases hm : w.checkGroups oid with
                  | error e => simp [hm]
                  | ok membership =>
                    simp only [hm]
                    split <;> simp
                · simp

/-- C9: a POST body without an `email` field (including the empty
object an unparseable body defaults to) is answered 400 with
`email is required` before any external call: no token acquisition, no
authorization lookup, no directory call. -/
theorem handler_missing_email (cfg : BackendConfig) (req : BackendRequest)
    (w : HandlerWorld)
    (h : jsonGet (req.body.getD (Json.obj [])) "email" = Json.null) :
    inviteGuestHandler cfg req w =
      ({ status := 400, jsonBody := Json.obj [("error", Json.str "email is required")] }, []) := by
  simp [inviteGuestHandler, h, jsTruthy]

/-- Witness for `handler_missing_email`: an unparseable body (defaulted
to `{}`) in a local-bypass configuration. -/
theorem handler_missing_email_witness :
    inviteGuestHandler
      { isAzureRuntime := false, allowLocalAnonymousInvite := true,
        allowedInviterGroupObjectIds := [], enforceGroupMembershipInAzure := true,
        azureClientId := "", guestSourceValue := "GuestInvited" }
      { principal := none, body := none }
      { tokenRes := .ok "token", tokenClaims := none,
        getUser := fun _ => .ok Json.null, checkGroups := fun _ => .ok Json.null,
        postInvitation := fun _ => .ok Json.null, patchUser := fun _ => .ok Json.null } =
      ({ status := 400, jsonBody := Json.obj [("error", Json.str "email is required")] }, []) :=
  handler_missing_email _ _ _ rfl

/-- C10: when the invitation call succeeds but its response carries no
truthy `invitedUser.id`, the handler answers 500 with the fixed error
and the raw invitation response embedded, and the attribute-stamping
PATCH is never attempted. -/
theorem handler_missing_invitedUserId (cfg : BackendConfig) (req : BackendRequest)
    (w : HandlerWorld) (tok mode : String) (caller : Json) (authEffs : List Effect)
    (invitation : Json)
    (hemail : jsTruthy (jsonGet (req.body.getD (Json.obj [])) "email") = true)
    (htok : w.tokenRes = .ok tok)
    (hauth : authorizeInviter cfg req w.graphWorld = (.ok (.allowed mode caller), authEffs))
    (hinv : w.postInvitation (builtInvitationBody (req.body.getD (Json.obj []))) = .ok invitation)
    (hid : jsTruthy (jsonGet (jsonGet invitation "invitedUser") "id") = false) :
    inviteGuestHandler cfg req w =
      ({ status := 500,
         jsonBody := Json.obj
           [("error", Json.str "Invite succeeded but invitedUser.id not returned"),
            ("invitation", invitation)] },
       Effect.acquireToken :: authEffs ++
         [Effect.graphPostInvitation (builtInvitationBody (req.body.getD (Json.obj [])))]) ∧
    ∀ uid, Effect.graphPatchUser uid ∉ (inviteGuestHandler cfg req w).2 := by
  have hmain : inviteGuestHandler cfg req w =
      ({ status := 500,
         jsonBody := Json.obj
           [("error", Json.str "Invite succeeded but invitedUser.id not returned"),
            ("invitation", invitation)] },
       Effect.acquireToken :: authEffs ++
         [Effect.graphPostInvitation (builtInvitationBody (req.body.getD (Json.obj [])))]) := by
    simp [inviteGuestHandler, hemail, htok, hauth, hinv, hid]
  refine ⟨hmain, ?_⟩
  intro uid
  rw [hmain]
  intro hmem
  have hnp : Effect.graphPatchUser uid ∉ authEffs := by
    have hh := authorizeInviter_no_patch cfg req w.graphWorld uid
    rw [hauth] at hh
    exact hh
  rcases List.mem_cons.1 hmem with he | hmem2
  · exact Effect.noConfusion he
  · rcases List.mem_append.1 hmem2 with hin | hin
    · exact hnp hin
    · rcases List.mem_singleton.1 hin with he2
      exact Effect.noConfusion he2

/-- Witness for `handler_missing_invitedUserId`: a local-bypass
request whose invitation response is `{}`. -/
theorem handler_missing_invitedUserId_witness :
    inviteGuestHandler
      { isAzureRuntime := false, allowLocalAnonymousInvite := true,
        allowedInviterGroupObjectIds := [], enforceGroupMembershipInAzure := true,
        azureClientId := "", guestSourceValue := "GuestInvited" }
      { principal := none, body := some (Json.obj [("email", Json.str "guest@external.com")]) }
      { tokenRes := .ok "token", tokenClaims := none,
        getUser := fun _ => .ok Json.null, checkGroups := fun _ => .ok Json.null,
        postInvitation := fun _ => .ok (Json.obj []), patchUser := fun _ => .ok Json.null } =
      ({ status := 500,
         jsonBody := Json.obj
           [("error", Json.str "Invite succeeded but invitedUser.id not returned"),
            ("invitation", Json.obj [])] },
       Effect.acquireToken :: ([] : List Effect) ++
         [Effect.graphPostInvitation (builtInvitationBody
           ((some (Json.obj [("email", Json.str "guest@external.com")])).getD (Json.obj [])))]) :=
  (handler_missing_invitedUserId
    { isAzureRuntime := false, allowLocalAnonymousInvite := true,
      allowedInviterGroupObjectIds := [], enforceGroupMembershipInAzure := true,
      azureClientId := "", guestSourceValue := "GuestInvited" }
    { principal := none, body := some (Json.obj [("email", Json.str "guest@external.com")]) }
    { tokenRes := .ok "token", tokenClaims := none,
      getUser := fun _ => .ok Json.null, checkGroups := fun _ => .ok Json.null,
      postInvitation := fun _ => .ok (Json.obj []), patchUser := fun _ => .ok Json.null }
    "token" "local_bypass" localBypassCaller [] (Json.obj [])
    rfl rfl rfl rfl rfl).1

end GuestInvite
